import Mathlib

/-!
Verification of the conversation-orchestration engine of the `agenticai`
repository against its natural-language specification.

The embedding below is a shallow translation of the JavaScript sources:

* `src/ai/agent.js` (first document): the LangGraph workflow built in
  `runExample` — the `llmNode` function, the `toolNode`, and the graph
  wiring `START → llm`, `tools → llm`, and the conditional edge from
  `llm` that routes to `tools` when the last assistant message carries
  tool calls and to `END` otherwise.
* `src/ai/agent.js` (server document): the Express handlers
  `performModelChat` and `performMCPModelChat`, including their input
  guard, the streaming accumulation loop (`concat` + `res.write`), the
  message-role conversion to LangChain messages, and the
  `try`/`catch`/`finally` structure around the MCP client `close()`.
* `src/ai/Model.js`: `ModelWithMCPFile`, which catches acquisition
  failures and resolves to `null`.

The execution semantics of the LangGraph `StateGraph` runner and of the
prebuilt `ToolNode` are not part of this repository's sources; where a
definition depends on them it is modelled from the specification
(§4.1 of the spec) and its doc comment says so explicitly.
-/

namespace Agentic

/-- Message roles, from the spec's data model (§3) and the LangChain
message classes used by the source (`SystemMessage`, `HumanMessage`,
`AIMessage`, `ToolMessage`). -/
inductive Role
  | system
  | user
  | assistant
  | tool
deriving DecidableEq

/-- One requested tool invocation, from the spec's `ToolCallRequest`
(§3) and the `tool_calls` entries the source reads on AI messages:
`id`, `name`, and the (textual) arguments payload. -/
structure ToolCall where
  id : String
  name : String
  args : String
deriving DecidableEq

/-- One transcript message. `tool_calls` is read by the conditional
edge in `src/ai/agent.js` (`aiMessage.tool_calls && aiMessage.tool_calls.length > 0`);
`tool_call_id` and `name` are the correlation fields a ToolMessage
carries. -/
structure Msg where
  role : Role
  content : String := ""
  tool_calls : List ToolCall := []
  tool_call_id : String := ""
  name : String := ""
deriving DecidableEq

instance : Inhabited Msg := ⟨{ role := Role.user }⟩

/-- A model response, as produced by `model.invoke(messages)` in
`llmNode`: always an AI (assistant) message, with content and possibly
tool calls. -/
structure AIResp where
  content : String := ""
  tool_calls : List ToolCall := []
deriving DecidableEq

/-- Wrap a model response as the assistant `Msg` appended to the
transcript by `llmNode`'s `return { messages: [response] }`. -/
def aiToMsg (r : AIResp) : Msg :=
  { role := Role.assistant, content := r.content, tool_calls := r.tool_calls }

/-- A model invoker: the transcript handed to `model.invoke` determines
the response. Treated as an opaque external collaborator, as the spec
does (§2, Model Invoker). -/
abbrev ModelInvoker := List Msg → AIResp

/-- A tool executor: `(name, arguments) → payload or error`, the spec's
Tool Executor Pool contract (§6). -/
abbrev ToolExec := String → String → Except String String

/-- Transcript adjustment performed by `llmNode` in `src/ai/agent.js`:
if the state holds exactly one message and it is a human message, the
system message is prepended before invoking the model (the prepended
message is not part of the returned state). -/
def llmInput (sysM : Msg) (msgs : List Msg) : List Msg :=
  match msgs with
  | [m] => if m.role = Role.user then [sysM, m] else [m]
  | _ => msgs

/-- The conditional edge attached to the `llm` node in
`src/ai/agent.js`: route to the `tools` node exactly when the last
message of the state carries a non-empty `tool_calls` list, otherwise
route to `END`. -/
def routeToTools (msgs : List Msg) : Bool :=
  match msgs.getLast? with
  | some m => decide (0 < m.tool_calls.length)
  | none => false

/-- Modelled from the spec: execution of one ToolCallRequest by the
prebuilt `ToolNode` (a `@langchain/langgraph` dependency, not under
`src/`). Per §4.1 step 2 and §7 of the spec, a successful invocation
yields a ToolResult carrying the payload, and a failed invocation
yields a ToolResult encoding the error text instead of aborting; the
result carries the originating call's `id`. -/
def execToolCall (exec : ToolExec) (tc : ToolCall) : Msg :=
  match exec tc.name tc.args with
  | Except.ok out =>
      { role := Role.tool, content := out, tool_call_id := tc.id, name := tc.name }
  | Except.error e =>
      { role := Role.tool, content := r"Error: " ++ e, tool_call_id := tc.id, name := tc.name }

/-- Modelled from the spec: the `tools` node (`new ToolNode(mcpTools)`
in `src/ai/agent.js`; the class itself is a dependency). For every
ToolCallRequest of the last assistant message, in order, it produces
exactly one ToolResult message (§4.1 step 2). -/
def toolNode (exec : ToolExec) (msgs : List Msg) : List Msg :=
  (((msgs.getLast?).map Msg.tool_calls).getD []).map (execToolCall exec)

/-- Result of one orchestration run: the final transcript, whether the
run reached the `END` edge (the spec's `Done`), and how many model
invocations were made. -/
structure RunResult where
  transcript : List Msg
  done : Bool
  modelCalls : Nat
deriving DecidableEq

/-- Modelled from the spec: the `StateGraph` runner for the wiring
built in `src/ai/agent.js` (`START → llm`, conditional `llm → tools`
or `llm → END`, `tools → llm`); the runner itself is a dependency.
Each iteration invokes the model on the (system-adjusted) transcript,
appends the assistant message (the `MessagesAnnotation` reducer
concatenates), and either appends the tool node's results and loops
back to `llm`, or terminates. `fuel` bounds the unfolding; running out
of fuel leaves `done := false`. -/
def runLoop (sysM : Msg) (model : ModelInvoker) (exec : ToolExec) :
    Nat → List Msg → RunResult
  | 0, msgs => { transcript := msgs, done := false, modelCalls := 0 }
  | Nat.succ n, msgs =>
    let r := model (llmInput sysM msgs)
    let msgs1 := msgs ++ [aiToMsg r]
    if routeToTools msgs1 then
      let msgs2 := msgs1 ++ toolNode exec msgs1
      let rest := runLoop sysM model exec n msgs2
      { transcript := rest.transcript, done := rest.done,
        modelCalls := rest.modelCalls + 1 }
    else
      { transcript := msgs1, done := true, modelCalls := 1 }

/-- The inlined system message handed to `llmNode` (abbreviated; the
claims do not depend on its text). -/
def sysDefault : Msg := { role := Role.system, content := r"You are an assistant that helps users with file operations." }

/-- A user message, as in the spec's Scenario A. -/
def userHi : Msg := { role := Role.user, content := r"hi" }

/-- A model invoker that always answers with plain text and no tool
calls. -/
def plainModel : ModelInvoker := fun _ => { content := r"hello" }

/-- A model invoker that requests one tool call on every invocation
(used to exhibit the absence of a turn cap). -/
def alwaysToolModel : ModelInvoker :=
  fun _ => { content := r"", tool_calls := [{ id := r"1", name := r"loop_tool", args := r"x" }] }

/-- A tool executor that always succeeds. -/
def okExec : ToolExec := fun _ _ => Except.ok (r"ok")

/-! ## Stream Merger

Embedding of the streaming loop of `performModelChat` in
`src/ai/agent.js` (server document):

  for await (const chunk of stream) {
    if (finalResult) { finalResult = concat(finalResult, chunk); }
    else { finalResult = chunk; }
    res.write(chunk.content);
  }
-/

/-- One streamed chunk of assistant output (a LangChain
`AIMessageChunk` as far as the loop reads it: its `content`). -/
structure AIChunk where
  content : String
deriving DecidableEq

/-- The `concat` of `@langchain/core/utils/stream` on two chunks, as
the loop uses it: string contents are concatenated. -/
def chunkConcat (a b : AIChunk) : AIChunk :=
  { content := a.content ++ b.content }

/-- The streaming loop of `performModelChat`: threads the accumulator
`finalResult` (initially absent) and the list of strings written to
the response sink, one `res.write(chunk.content)` per chunk, in
arrival order. Returns the final accumulator and all writes. -/
def streamLoop : Option AIChunk → List String → List AIChunk →
    Option AIChunk × List String
  | acc, ws, [] => (acc, ws)
  | acc, ws, c :: cs =>
    let acc1 := match acc with
      | some f => some (chunkConcat f c)
      | none => some c
    streamLoop acc1 (ws ++ [c.content]) cs

/-- The merged message at end of stream: `streamLoop` from the empty
accumulator and sink. -/
def mergeStream (cs : List AIChunk) : Option AIChunk :=
  (streamLoop none [] cs).1

/-- The full sequence of sink writes produced by the streaming loop. -/
def sinkWrites (cs : List AIChunk) : List String :=
  (streamLoop none [] cs).2

/-! ## Request Dispatcher: message conversion and handlers

Embedding of `performModelChat` and `performMCPModelChat` from the
server document of `src/ai/agent.js`, and of `ModelWithMCPFile` from
`src/ai/Model.js`.
-/

/-- An incoming message of the request body: a JSON object with `role`
and `content` strings. -/
structure InMsg where
  role : String
  content : String
deriving DecidableEq

/-- The `messages` field of the request body as the handlers see it:
missing, present but not an array, or an array of messages. -/
inductive MessagesField
  | missing
  | notArray
  | arr (xs : List InMsg)
deriving DecidableEq

/-- `Array.isArray(messages)` of the handlers' input guard. -/
def isArrayField : MessagesField → Bool
  | MessagesField.arr _ => true
  | _ => false

/-- The underlying list (empty when the field is not an array). -/
def fieldList : MessagesField → List InMsg
  | MessagesField.arr xs => xs
  | _ => []

/-- A LangChain message as the conversion builds it: `HumanMessage` or
`AIMessage`, each carrying the original content. -/
inductive LCMsg
  | human (content : String)
  | ai (content : String)
deriving DecidableEq

/-- The per-message conversion of both handlers:
`msg.role === 'user' ? new HumanMessage(msg.content) : new AIMessage(msg.content)`. -/
def toLC (m : InMsg) : LCMsg :=
  if m.role = r"user" then LCMsg.human m.content else LCMsg.ai m.content

/-- The `lcMessages` mapping of `performModelChat`. -/
def lcMessagesDirect (ms : List InMsg) : List LCMsg := ms.map toLC

/-- The `lcMessages` mapping of `performMCPModelChat`. -/
def lcMessagesMCP (ms : List InMsg) : List LCMsg := ms.map toLC

/-- A JavaScript error value as the handlers inspect it:
`status_code` (possibly absent), `error` (possibly absent), and
`message`. -/
structure JsErr where
  status_code : Option Nat := none
  error : Option String := none
  message : String := ""
deriving DecidableEq

/-- The TypeError raised by reading `.agent` on a `null` chat object
(`chat.agent.stream` / `chat.agent.invoke` when `ModelWithMCPFile`
resolved to `null`). -/
def nullAgentErr : JsErr :=
  { message := r"Cannot read properties of null (reading agent)" }

/-- The TypeError raised by reading `.client` on a `null` chat object
in the handlers' `finally` blocks. -/
def nullClientErr : JsErr :=
  { message := r"Cannot read properties of null (reading client)" }

/-- The TypeError raised by `res.write(obj)` when handed a plain
object instead of a string or Buffer (the non-streaming catch branch
does `res.write({ error: ... })`). -/
def resWriteObjErr : JsErr :=
  { message := r"The first argument must be of type string or an instance of Buffer" }

/-- Observable outcome of one `performModelChat` request: the error
status and message sent via `res.status(...).json(...)` if any, the
successful `{ reply }` body if any, the chunks written to the
streaming sink, and whether the model instance was constructed
(`await Model(modelConfig)` reached). -/
structure DirectTrace where
  statusJson : Option (Nat × String)
  reply : Option String
  writes : List String
  modelConstructed : Bool
deriving DecidableEq

/-- The guard message of both handlers. -/
def noMessagesErr : String := r"No messages provided"

/-- The 500 message of the handlers' empty-result branch. -/
def noContentErr : String := r"No content in OpenAI response"

/-- Error body construction for a 404: `err.error || (provider +
" resource not found")`. -/
def err404Body (prov : String) (e : JsErr) : String :=
  e.error.getD (prov ++ r" resource not found")

/-- Embedding of `performModelChat` (server document of
`src/ai/agent.js`). Inputs beyond the request body are the behaviors
of the external collaborators: `streamOutcome` is the list of chunks
the model stream yields before it either ends normally (`none`) or
raises an error (`some e`); `invokeOutcome` is the non-streaming
`chat.invoke` result, where `Except.ok none` models a response without
content and `Except.ok (some c)` a response whose `content` is `c`. -/
def performModelChat (prov : String) (mf : MessagesField) (streamFlag : Bool)
    (streamOutcome : List AIChunk × Option JsErr)
    (invokeOutcome : Except JsErr (Option String)) : DirectTrace :=
  if !(isArrayField mf) || (fieldList mf).isEmpty then
    { statusJson := some (400, noMessagesErr), reply := none, writes := [],
      modelConstructed := false }
  else
    if streamFlag then
      let ws := sinkWrites streamOutcome.1
      match streamOutcome.2 with
      | none =>
          { statusJson := none, reply := none, writes := ws, modelConstructed := true }
      | some e =>
          if e.status_code = some 404 then
            { statusJson := some (404, err404Body prov e), reply := none,
              writes := ws, modelConstructed := true }
          else
            { statusJson := some (500, e.message), reply := none,
              writes := ws, modelConstructed := true }
    else
      match invokeOutcome with
      | Except.ok none =>
          { statusJson := some (500, noContentErr), reply := none, writes := [],
            modelConstructed := true }
      | Except.ok (some c) =>
          { statusJson := none, reply := some c, writes := [],
            modelConstructed := true }
      | Except.error e =>
          if e.status_code = some 404 then
            { statusJson := some (404, err404Body prov e), reply := none,
              writes := [], modelConstructed := true }
          else
            { statusJson := some (500, e.message), reply := none, writes := [],
              modelConstructed := true }

/-- An output message as the MCP handler reads graph output
(`m.name`, `m.content`). -/
structure OutMsg where
  name : String := ""
  content : String := ""
deriving DecidableEq

/-- One chunk yielded by `chat.agent.stream`: it may carry
`chunk.agent.messages` and/or `chunk.tools.messages` (each an
optional list). -/
structure MCPChunk where
  agent : Option (List OutMsg) := none
  tools : Option (List OutMsg) := none
deriving DecidableEq

/-- Text written for one tools-node message:
`"🔧" + m.name + ":" + m.content`. -/
def toolChunkText (m : OutMsg) : String :=
  r"🔧" ++ m.name ++ r":" ++ m.content

/-- The writes the MCP streaming loop performs for one chunk:
`res.write(chunk.agent.messages.map(m => m.content).join(''))` when
the `agent` key is present, then the tools-node line when the `tools`
key is present. -/
def chunkWrites (c : MCPChunk) : List String :=
  (match c.agent with
   | some ms => [String.join (ms.map OutMsg.content)]
   | none => []) ++
  (match c.tools with
   | some ms => [String.join (ms.map toolChunkText)]
   | none => [])

/-- All writes of the MCP streaming loop, in chunk arrival order. -/
def chunkWritesAll (cs : List MCPChunk) : List String :=
  cs.foldr (fun c acc => chunkWrites c ++ acc) []

/-- The result object `chat.agent.invoke` resolves to: its `messages`
key may be absent. -/
structure GraphResult where
  messages : Option (List OutMsg)
deriving DecidableEq

/-- The reply content the non-streaming MCP branch extracts:
`result.messages.map(m => m.content).join('')` when `messages` is
present, else the initial empty string. -/
def graphContent (r : GraphResult) : String :=
  match r.messages with
  | some ms => String.join (ms.map OutMsg.content)
  | none => ""

/-- The object `ModelWithMCPFile` resolves to when acquisition
succeeds (`src/ai/Model.js` returns `{ agent, client }`), bundled with
the behavior its agent will exhibit on this request. `clientPresent`
mirrors the handler's `if (chat.client)` guard. -/
structure MCPChat where
  clientPresent : Bool
  streamOutcome : List MCPChunk × Option JsErr
  invokeOutcome : Except JsErr (Option GraphResult)

/-- Observable outcome of one `performMCPModelChat` request.
`acquisitionAttempted` records that `ModelWithMCPFile` was called
(i.e., the input guard was passed); `agentInvoked` that
`chat.agent.stream` or `chat.agent.invoke` actually ran on a non-null
chat; `closeCalls` counts invocations of `chat.client.close()`;
`thrown` is the exception escaping the handler, if any. -/
structure MCPTrace where
  statusJson : Option (Nat × String)
  reply : Option String
  writes : List String
  acquisitionAttempted : Bool
  agentInvoked : Bool
  closeCalls : Nat
  thrown : Option JsErr
deriving DecidableEq

/-- Number of `close()` invocations the `finally` block performs:
one when the chat object exists and its `client` is set, none when
the chat is `null` (the guard itself throws) or has no client. -/
def closeCount (chat : Option MCPChat) : Nat :=
  match chat with
  | none => 0
  | some c => if c.clientPresent then 1 else 0

/-- The exception escaping the handler after the `finally` block runs:
a `null` chat makes the `if (chat.client)` guard itself throw a
TypeError (masking any pending exception); a failing `close()` throws
its error (masking any pending exception); otherwise the pending
exception from the `try`/`catch`, if any, escapes. -/
def finallyThrown (chat : Option MCPChat) (closeOutcome : Except JsErr Unit)
    (pending : Option JsErr) : Option JsErr :=
  match chat with
  | none => some nullClientErr
  | some c =>
    if c.clientPresent then
      match closeOutcome with
      | Except.error e => some e
      | Except.ok _ => pending
    else pending

/-- Outcome of the `try`/`catch` body of `performMCPModelChat`, before
the `finally` block: response-visible effects plus the pending
exception (an exception thrown inside the `catch` branch itself). -/
structure MCPCore where
  statusJson : Option (Nat × String)
  reply : Option String
  writes : List String
  agentInvoked : Bool
  pending : Option JsErr
deriving DecidableEq

/-- The `try`/`catch` body of `performMCPModelChat`. When the chat is
`null` (acquisition failed in `ModelWithMCPFile`): the streaming
branch's `chat.agent.stream` throws a TypeError which the catch turns
into a written error line; the non-streaming branch's catch calls
`res.write` with a plain object, which itself throws. When the chat
exists: the streaming loop writes each chunk's text, then the stream
either ends (`res.end()`), errors with a 404 status hint
(`res.status(404).json(...)`), or errors otherwise (an error line is
written); the non-streaming branch returns the joined message
contents, a 500 for a null result, a 404 for a hinted error, or
throws from `res.write(obj)` otherwise. -/
def mcpTryBody (prov : String) (streamFlag : Bool) (chat : Option MCPChat) : MCPCore :=
  match chat with
  | none =>
    if streamFlag then
      { statusJson := none, reply := none,
        writes := [r"Error: " ++ nullAgentErr.message],
        agentInvoked := false, pending := none }
    else
      { statusJson := none, reply := none, writes := [],
        agentInvoked := false, pending := some resWriteObjErr }
  | some c =>
    if streamFlag then
      let ws := chunkWritesAll c.streamOutcome.1
      match c.streamOutcome.2 with
      | none =>
          { statusJson := none, reply := none, writes := ws,
            agentInvoked := true, pending := none }
      | some e =>
          if e.status_code = some 404 then
            { statusJson := some (404, err404Body prov e), reply := none,
              writes := ws, agentInvoked := true, pending := none }
          else
            { statusJson := none, reply := none,
              writes := ws ++ [r"Error: " ++ e.message],
              agentInvoked := true, pending := none }
    else
      match c.invokeOutcome with
      | Except.ok none =>
          { statusJson := some (500, noContentErr), reply := none, writes := [],
            agentInvoked := true, pending := none }
      | Except.ok (some res) =>
          { statusJson := none, reply := some (graphContent res), writes := [],
            agentInvoked := true, pending := none }
      | Except.error e =>
          if e.status_code = some 404 then
            { statusJson := some (404, err404Body prov e), reply := none,
              writes := [], agentInvoked := true, pending := none }
          else
            { statusJson := none, reply := none, writes := [],
              agentInvoked := true, pending := some resWriteObjErr }

/-- Embedding of `performMCPModelChat` (server document of
`src/ai/agent.js`): the input guard, then `await
ModelWithMCPFile(...)` (its outcome is the `chat` parameter; per
`src/ai/Model.js` an acquisition failure is caught there and resolves
to `null`, i.e. `none`), then the `try`/`catch` body, then the
`finally` block closing the MCP client. -/
def performMCPModelChat (prov : String) (mf : MessagesField) (streamFlag : Bool)
    (chat : Option MCPChat) (closeOutcome : Except JsErr Unit) : MCPTrace :=
  if !(isArrayField mf) || (fieldList mf).isEmpty then
    { statusJson := some (400, noMessagesErr), reply := none, writes := [],
      acquisitionAttempted := false, agentInvoked := false, closeCalls := 0,
      thrown := none }
  else
    let core := mcpTryBody prov streamFlag chat
    { statusJson := core.statusJson, reply := core.reply, writes := core.writes,
      acquisitionAttempted := true, agentInvoked := core.agentInvoked,
      closeCalls := closeCount chat,
      thrown := finallyThrown chat closeOutcome core.pending }

/-! ## Helper lemmas -/

/-- The last element of a transcript after appending one message. -/
theorem lastOfSnoc {α : Type} (l : List α) (a : α) : (l ++ [a]).getLast? = some a := by
  rw [List.getLast?_append_cons]
  rfl

/-- The tool node applied to a transcript ending in a given message
executes exactly that message's tool calls, in order. -/
theorem toolNode_snoc (exec : ToolExec) (msgs : List Msg) (m : Msg) :
    toolNode exec (msgs ++ [m]) = m.tool_calls.map (execToolCall exec) := by
  simp [toolNode, lastOfSnoc]

/-- The conditional edge after appending the assistant message inspects
that message's tool calls. -/
theorem routeToTools_snoc (msgs : List Msg) (m : Msg) :
    routeToTools (msgs ++ [m]) = decide (0 < m.tool_calls.length) := by
  simp [routeToTools, lastOfSnoc]

/-- A ToolResult always carries the id of its originating call. -/
theorem execToolCall_id (exec : ToolExec) (tc : ToolCall) :
    (execToolCall exec tc).tool_call_id = tc.id := by
  unfold execToolCall
  split <;> rfl

/-- A ToolResult always has the tool role. -/
theorem execToolCall_role (exec : ToolExec) (tc : ToolCall) :
    (execToolCall exec tc).role = Role.tool := by
  unfold execToolCall
  split <;> rfl

/-- Unfolding of `runLoop` at zero fuel. -/
theorem runLoop_zero (sysM : Msg) (model : ModelInvoker) (exec : ToolExec)
    (msgs : List Msg) :
    runLoop sysM model exec 0 msgs =
      { transcript := msgs, done := false, modelCalls := 0 } := rfl

/-- Unfolding of one `runLoop` iteration. -/
theorem runLoop_succ (sysM : Msg) (model : ModelInvoker) (exec : ToolExec)
    (n : Nat) (msgs : List Msg) :
    runLoop sysM model exec (n + 1) msgs =
      (if routeToTools (msgs ++ [aiToMsg (model (llmInput sysM msgs))]) then
        { transcript := (runLoop sysM model exec n
            ((msgs ++ [aiToMsg (model (llmInput sysM msgs))]) ++
              toolNode exec (msgs ++ [aiToMsg (model (llmInput sysM msgs))]))).transcript,
          done := (runLoop sysM model exec n
            ((msgs ++ [aiToMsg (model (llmInput sysM msgs))]) ++
              toolNode exec (msgs ++ [aiToMsg (model (llmInput sysM msgs))]))).done,
          modelCalls := (runLoop sysM model exec n
            ((msgs ++ [aiToMsg (model (llmInput sysM msgs))]) ++
              toolNode exec (msgs ++ [aiToMsg (model (llmInput sysM msgs))]))).modelCalls + 1 }
      else
        { transcript := msgs ++ [aiToMsg (model (llmInput sysM msgs))],
          done := true, modelCalls := 1 }) := rfl

/-- One iteration in the tool-calling case. -/
theorem runLoop_succ_tools (sysM : Msg) (model : ModelInvoker) (exec : ToolExec)
    (n : Nat) (msgs : List Msg)
    (h : (model (llmInput sysM msgs)).tool_calls ≠ []) :
    runLoop sysM model exec (n + 1) msgs =
      { transcript := (runLoop sysM model exec n
          ((msgs ++ [aiToMsg (model (llmInput sysM msgs))]) ++
            toolNode exec (msgs ++ [aiToMsg (model (llmInput sysM msgs))]))).transcript,
        done := (runLoop sysM model exec n
          ((msgs ++ [aiToMsg (model (llmInput sysM msgs))]) ++
            toolNode exec (msgs ++ [aiToMsg (model (llmInput sysM msgs))]))).done,
        modelCalls := (runLoop sysM model exec n
          ((msgs ++ [aiToMsg (model (llmInput sysM msgs))]) ++
            toolNode exec (msgs ++ [aiToMsg (model (llmInput sysM msgs))]))).modelCalls + 1 } := by
  have hroute : routeToTools (msgs ++ [aiToMsg (model (llmInput sysM msgs))]) = true := by
    rw [routeToTools_snoc]
    simp [aiToMsg, List.length_pos, h]
  rw [runLoop_succ, if_pos hroute]

/-- One iteration in the no-tool-calls case: the loop terminates with
`done` after this single model invocation. -/
theorem runLoop_succ_done (sysM : Msg) (model : ModelInvoker) (exec : ToolExec)
    (n : Nat) (msgs : List Msg)
    (h : (model (llmInput sysM msgs)).tool_calls = []) :
    runLoop sysM model exec (n + 1) msgs =
      { transcript := msgs ++ [aiToMsg (model (llmInput sysM msgs))],
        done := true, modelCalls := 1 } := by
  have hroute : routeToTools (msgs ++ [aiToMsg (model (llmInput sysM msgs))]) = false := by
    rw [routeToTools_snoc]
    simp [aiToMsg, h]
  rw [runLoop_succ, hroute]
  rfl

/-- With the always-tool-calling model, a run with fuel `n` makes
exactly `n` model calls and never reaches `Done`. -/
theorem runLoop_alwaysTool (n : Nat) : ∀ msgs : List Msg,
    (runLoop sysDefault alwaysToolModel okExec n msgs).modelCalls = n
    ∧ (runLoop sysDefault alwaysToolModel okExec n msgs).done = false := by
  induction n with
  | zero => intro msgs; exact ⟨rfl, rfl⟩
  | succ n ih =>
    intro msgs
    rw [runLoop_succ_tools sysDefault alwaysToolModel okExec n msgs (by simp [alwaysToolModel])]
    exact ⟨by rw [(ih _).1], (ih _).2⟩

/-- Auxiliary fact about `String.join`'s left fold. -/
theorem joinFoldShift (ss : List String) : ∀ a : String,
    List.foldl (fun r s => r ++ s) a ss = a ++ List.foldl (fun r s => r ++ s) "" ss := by
  induction ss with
  | nil => intro a; simp [String.append_empty]
  | cons s ss ih =>
    intro a
    simp only [List.foldl]
    rw [ih (a ++ s), ih ("" ++ s), String.empty_append, String.append_assoc]

/-- `String.join` peels off its head element. -/
theorem joinCons (s : String) (ss : List String) :
    String.join (s :: ss) = s ++ String.join ss := by
  simp only [String.join, List.foldl]
  rw [joinFoldShift ss ("" ++ s), String.empty_append]

/-- The streaming loop from a non-empty accumulator: the final content
is the accumulator's content followed by all remaining fragment texts,
and each fragment's text is written once, in arrival order. -/
theorem streamLoop_some (cs : List AIChunk) : ∀ (a : AIChunk) (ws : List String),
    streamLoop (some a) ws cs =
      (some { content := a.content ++ String.join (cs.map AIChunk.content) },
        ws ++ cs.map AIChunk.content) := by
  induction cs with
  | nil =>
    intro a ws
    simp only [streamLoop, List.map_nil, List.append_nil]
    rw [show String.join [] = "" from rfl, String.append_empty]
  | cons c cs ih =>
    intro a ws
    simp only [streamLoop, List.map_cons]
    rw [ih (chunkConcat a c) (ws ++ [c.content]), joinCons]
    simp [chunkConcat, String.append_assoc]

/-! ## Claims -/

/-- C1: for every assistant message carrying N ToolCallRequests, the
orchestration loop appends exactly N ToolResult messages, in the same
order as the originating requests (the i-th result carries the i-th
request's id and the tool role), before the next Model Invoker call:
one iteration routes to the tools node once, appends its batch of
results, and only then recurses into the next `llm` invocation. -/
theorem C1_toolBatchAppendedInOrder (sysM : Msg) (model : ModelInvoker)
    (exec : ToolExec) (n : Nat) (msgs : List Msg) (r : AIResp)
    (hr : model (llmInput sysM msgs) = r) (h : r.tool_calls ≠ []) :
    (toolNode exec (msgs ++ [aiToMsg r])).length = r.tool_calls.length
    ∧ (toolNode exec (msgs ++ [aiToMsg r])).map Msg.tool_call_id
        = r.tool_calls.map ToolCall.id
    ∧ (∀ m ∈ toolNode exec (msgs ++ [aiToMsg r]), m.role = Role.tool)
    ∧ runLoop sysM model exec (n + 1) msgs =
        { transcript := (runLoop sysM model exec n
            ((msgs ++ [aiToMsg r]) ++ toolNode exec (msgs ++ [aiToMsg r]))).transcript,
          done := (runLoop sysM model exec n
            ((msgs ++ [aiToMsg r]) ++ toolNode exec (msgs ++ [aiToMsg r]))).done,
          modelCalls := (runLoop sysM model exec n
            ((msgs ++ [aiToMsg r]) ++ toolNode exec (msgs ++ [aiToMsg r]))).modelCalls + 1 } := by
  subst hr
  refine ⟨?_, ?_, ?_, ?_⟩
  · rw [toolNode_snoc]
    simp [aiToMsg]
  · rw [toolNode_snoc]
    simp [aiToMsg, List.map_map, Function.comp, execToolCall_id]
  · intro m hm
    rw [toolNode_snoc] at hm
    rcases List.mem_map.mp hm with ⟨tc, _, htc⟩
    rw [← htc]
    exact execToolCall_role exec tc
  · exact runLoop_succ_tools sysM model exec n msgs h

/-- A concrete one-tool-call model response (the spec's Scenario B
shape). -/
def callListFiles : ToolCall := { id := r"1", name := r"list_files", args := r"" }

/-- A model invoker that requests exactly one tool call. -/
def oneCallModel : ModelInvoker :=
  fun _ => { content := r"", tool_calls := [callListFiles] }

/-- A tool executor answering the Scenario B listing. -/
def listExec : ToolExec := fun _ _ => Except.ok (r"a.txt, b.txt")

/-- Witness for C1 at the Scenario B input. -/
theorem C1_toolBatchAppendedInOrder_witness :
    (toolNode listExec ([userHi] ++ [aiToMsg (oneCallModel (llmInput sysDefault [userHi]))])).length
      = (oneCallModel (llmInput sysDefault [userHi])).tool_calls.length
    ∧ (toolNode listExec ([userHi] ++ [aiToMsg (oneCallModel (llmInput sysDefault [userHi]))])).map Msg.tool_call_id
        = (oneCallModel (llmInput sysDefault [userHi])).tool_calls.map ToolCall.id := by
  have h := C1_toolBatchAppendedInOrder sysDefault oneCallModel listExec 0 [userHi]
    (oneCallModel (llmInput sysDefault [userHi])) rfl (by simp [oneCallModel])
  exact ⟨h.1, h.2.1⟩

/-- C2: when the model's first response carries no tool calls, the
loop reaches `Done` after exactly one Model Invoker call, with the
transcript extended by exactly one assistant message. -/
theorem C2_noToolsSingleCall (sysM : Msg) (model : ModelInvoker) (exec : ToolExec)
    (n : Nat) (msgs : List Msg)
    (h : (model (llmInput sysM msgs)).tool_calls = []) :
    runLoop sysM model exec (n + 1) msgs =
      { transcript := msgs ++ [aiToMsg (model (llmInput sysM msgs))],
        done := true, modelCalls := 1 }
    ∧ (aiToMsg (model (llmInput sysM msgs))).role = Role.assistant :=
  ⟨runLoop_succ_done sysM model exec n msgs h, rfl⟩

/-- Witness for C2 at the spec's Scenario A input. -/
theorem C2_noToolsSingleCall_witness :
    runLoop sysDefault plainModel okExec 1 [userHi] =
      { transcript := [userHi] ++ [aiToMsg (plainModel (llmInput sysDefault [userHi]))],
        done := true, modelCalls := 1 } :=
  (C2_noToolsSingleCall sysDefault plainModel okExec 0 [userHi] rfl).1

/-- The error-bearing ToolResult produced for a failed call. -/
def errToolMsg (tc : ToolCall) (e : String) : Msg :=
  { role := Role.tool, content := r"Error: " ++ e, tool_call_id := tc.id, name := tc.name }

/-- C4: a failed tool invocation does not abort the Session: the
failure is encoded into the corresponding ToolResult appended to the
transcript, and the loop transitions back to the model node (the next
Model Invoker call still happens via the recursion) rather than to a
failure state. -/
theorem C4_toolFailureRecovered (sysM : Msg) (model : ModelInvoker) (exec : ToolExec)
    (n : Nat) (msgs : List Msg) (r : AIResp) (tc : ToolCall) (e : String)
    (hr : model (llmInput sysM msgs) = r)
    (hc : r.tool_calls = [tc])
    (he : exec tc.name tc.args = Except.error e) :
    toolNode exec (msgs ++ [aiToMsg r]) = [errToolMsg tc e]
    ∧ (errToolMsg tc e).role = Role.tool
    ∧ (errToolMsg tc e).tool_call_id = tc.id
    ∧ runLoop sysM model exec (n + 1) msgs =
        { transcript := (runLoop sysM model exec n
            ((msgs ++ [aiToMsg r]) ++ [errToolMsg tc e])).transcript,
          done := (runLoop sysM model exec n
            ((msgs ++ [aiToMsg r]) ++ [errToolMsg tc e])).done,
          modelCalls := (runLoop sysM model exec n
            ((msgs ++ [aiToMsg r]) ++ [errToolMsg tc e])).modelCalls + 1 } := by
  subst hr
  have htn : toolNode exec (msgs ++ [aiToMsg (model (llmInput sysM msgs))])
      = [errToolMsg tc e] := by
    rw [toolNode_snoc]
    simp [aiToMsg, hc, execToolCall, he, errToolMsg]
  refine ⟨htn, rfl, rfl, ?_⟩
  have h := runLoop_succ_tools sysM model exec n msgs (by rw [hc]; simp)
  rw [htn] at h
  exact h

/-- A tool executor that always fails. -/
def failExec : ToolExec := fun _ _ => Except.error (r"boom")

/-- Witness for C4: a failing executor at the Scenario D shape. -/
theorem C4_toolFailureRecovered_witness :
    toolNode failExec ([userHi] ++ [aiToMsg (oneCallModel (llmInput sysDefault [userHi]))])
      = [errToolMsg callListFiles (r"boom")] :=
  (C4_toolFailureRecovered sysDefault oneCallModel failExec 0 [userHi]
    (oneCallModel (llmInput sysDefault [userHi])) callListFiles (r"boom")
    rfl rfl rfl).1

/-- C3: for every finite non-empty sequence of stream fragments, the
content of the final merged message equals the concatenation of all
fragment texts in arrival order, and each fragment's text is forwarded
to the caller-facing sink exactly once, in arrival order. -/
theorem C3_streamMergeRoundTrip (cs : List AIChunk) (h : cs ≠ []) :
    (∃ m : AIChunk, mergeStream cs = some m
        ∧ m.content = String.join (cs.map AIChunk.content))
    ∧ sinkWrites cs = cs.map AIChunk.content := by
  cases cs with
  | nil => cases h rfl
  | cons c cs =>
    unfold mergeStream sinkWrites
    simp only [streamLoop]
    rw [streamLoop_some cs c ([] ++ [c.content])]
    refine ⟨⟨_, rfl, ?_⟩, by simp⟩
    rw [List.map_cons, joinCons]

/-- The spec's Scenario C fragment sequence. -/
def scenarioChunks : List AIChunk := [{ content := r"He" }, { content := r"llo" }]

/-- Witness for C3 at the spec's Scenario C input. -/
theorem C3_streamMergeRoundTrip_witness :
    (∃ m : AIChunk, mergeStream scenarioChunks = some m
        ∧ m.content = String.join (scenarioChunks.map AIChunk.content))
    ∧ sinkWrites scenarioChunks = scenarioChunks.map AIChunk.content :=
  C3_streamMergeRoundTrip scenarioChunks (by simp [scenarioChunks])

/-- The claim C6 attributes to the implementation: some configured cap
bounds the number of model-invocation turns of every run. -/
def turnCapBounded : Prop :=
  ∃ cap : Nat, ∀ (sysM : Msg) (model : ModelInvoker) (exec : ToolExec)
    (n : Nat) (msgs : List Msg),
    (runLoop sysM model exec n msgs).modelCalls ≤ cap

/-- C6 counterexample: no turn cap exists in the implementation — with
a model that always requests a tool call, the loop makes as many model
invocations as its fuel allows, exceeding any candidate cap. -/
theorem C6_counterexample_noCap : ¬ turnCapBounded := by
  rintro ⟨cap, h⟩
  have h2 := h sysDefault alwaysToolModel okExec (cap + 1) [userHi]
  rw [(runLoop_alwaysTool (cap + 1) [userHi]).1] at h2
  omega

/-- C6 (amended): the orchestration loop terminates only by the
absence of further ToolCallRequests — whenever a run reaches `Done`,
the last transcript message carries no tool calls — and the
implementation provides no maximum turn count: for every `n` there is
a run making exactly `n` model calls without terminating. -/
theorem C6_amended_terminationOnlyByNoToolCalls :
    (∀ (sysM : Msg) (model : ModelInvoker) (exec : ToolExec) (n : Nat) (msgs : List Msg),
        (runLoop sysM model exec n msgs).done = true →
        ((runLoop sysM model exec n msgs).transcript.getLast?.map Msg.tool_calls) = some [])
    ∧ (∀ n : Nat, (runLoop sysDefault alwaysToolModel okExec n [userHi]).modelCalls = n
        ∧ (runLoop sysDefault alwaysToolModel okExec n [userHi]).done = false) := by
  constructor
  · intro sysM model exec n
    induction n with
    | zero =>
      intro msgs hdone
      rw [runLoop_zero] at hdone
      cases hdone
    | succ n ih =>
      intro msgs hdone
      by_cases hcalls : (model (llmInput sysM msgs)).tool_calls = []
      · rw [runLoop_succ_done sysM model exec n msgs hcalls]
        rw [lastOfSnoc]
        simp [aiToMsg, hcalls]
      · rw [runLoop_succ_tools sysM model exec n msgs hcalls] at hdone ⊢
        exact ih _ hdone
  · intro n
    exact runLoop_alwaysTool n [userHi]

/-- Witness for C6 (amended): the no-tool-call run reaches `Done` with
an empty tool-call list in its last message, and the always-tool-call
run makes three model calls at fuel three without terminating. -/
theorem C6_amended_terminationOnlyByNoToolCalls_witness :
    ((runLoop sysDefault plainModel okExec 1 [userHi]).transcript.getLast?.map Msg.tool_calls) = some []
    ∧ (runLoop sysDefault alwaysToolModel okExec 3 [userHi]).modelCalls = 3 :=
  ⟨C6_amended_terminationOnlyByNoToolCalls.1 sysDefault plainModel okExec 1 [userHi] rfl,
    (C6_amended_terminationOnlyByNoToolCalls.2 3).1⟩

/-- A provider string for concrete instances. -/
def provOpenai : String := r"openai"

/-- A well-formed one-message request body. -/
def wfBody : MessagesField :=
  MessagesField.arr [{ role := r"user", content := r"hi" }]

/-- An MCP chat whose agent completes normally in both modes. -/
def chatOK : MCPChat :=
  { clientPresent := true,
    streamOutcome := ([], none),
    invokeOutcome := Except.ok (some { messages := some [{ content := r"hello" }] }) }

/-- C5: for every MCP chat request that passes the input guard and
whose Session holds a Tool Executor Pool connection (the chat object
exists and carries a client), `close()` is invoked exactly once, on
every exit path — normal completion, streaming error, and
non-streaming error alike, whatever the agent and close outcomes. -/
theorem C5_closeExactlyOnce (prov : String) (mf : MessagesField) (streamFlag : Bool)
    (c : MCPChat) (closeOutcome : Except JsErr Unit)
    (ha : isArrayField mf = true) (hne : fieldList mf ≠ [])
    (hcp : c.clientPresent = true) :
    (performMCPModelChat prov mf streamFlag (some c) closeOutcome).closeCalls = 1 := by
  cases mf with
  | missing => simp [isArrayField] at ha
  | notArray => simp [isArrayField] at ha
  | arr xs =>
    cases xs with
    | nil => simp [fieldList] at hne
    | cons x xs =>
      simp [performMCPModelChat, isArrayField, fieldList, closeCount, hcp]

/-- Witness for C5: a normally completing non-streaming Session. -/
theorem C5_closeExactlyOnce_witness :
    (performMCPModelChat provOpenai wfBody false (some chatOK) (Except.ok ())).closeCalls = 1 :=
  C5_closeExactlyOnce provOpenai wfBody false chatOK (Except.ok ())
    rfl (by simp [wfBody, fieldList]) rfl

/-- C7: a chat request whose message list is missing, not an array, or
empty is rejected with status 400 before any Session is created: no
model is constructed (direct path) and no Tool Executor Pool
acquisition is attempted, no agent invoked and no close performed
(MCP path). -/
theorem C7_malformedRejectedEarly (prov : String) (mf : MessagesField)
    (streamFlag : Bool) (so : List AIChunk × Option JsErr)
    (io : Except JsErr (Option String)) (chat : Option MCPChat)
    (co : Except JsErr Unit)
    (h : isArrayField mf = false ∨ fieldList mf = []) :
    performModelChat prov mf streamFlag so io =
      { statusJson := some (400, noMessagesErr), reply := none, writes := [],
        modelConstructed := false }
    ∧ performMCPModelChat prov mf streamFlag chat co =
      { statusJson := some (400, noMessagesErr), reply := none, writes := [],
        acquisitionAttempted := false, agentInvoked := false, closeCalls := 0,
        thrown := none } := by
  have hguard : (!(isArrayField mf) || (fieldList mf).isEmpty) = true := by
    rcases h with h | h
    · rw [h]; rfl
    · rw [h]; simp
  constructor
  · simp [performModelChat, hguard]
  · simp [performMCPModelChat, hguard]

/-- An empty message list. -/
def emptyBody : MessagesField := MessagesField.arr []

/-- Witness for C7 at the empty-transcript input. -/
theorem C7_malformedRejectedEarly_witness :
    performModelChat provOpenai emptyBody false ([], none) (Except.ok none) =
      { statusJson := some (400, noMessagesErr), reply := none, writes := [],
        modelConstructed := false }
    ∧ performMCPModelChat provOpenai emptyBody false none (Except.ok ()) =
      { statusJson := some (400, noMessagesErr), reply := none, writes := [],
        acquisitionAttempted := false, agentInvoked := false, closeCalls := 0,
        thrown := none } :=
  C7_malformedRejectedEarly provOpenai emptyBody false ([], none) (Except.ok none)
    none (Except.ok ()) (Or.inr rfl)

/-- The close error used to exhibit C8's failure. -/
def closeBoom : JsErr := { message := r"close failed" }

/-- The successful reply content of `chatOK`. -/
def helloReply : String := r"hello"

/-- C8 counterexample: a failing `close()` escapes the handler — the
`finally` block has no guard around `await chat.client.close()`, so
the close error becomes the handler's thrown error even though the
orchestration itself completed normally (same inputs with a succeeding
close yield the reply with nothing thrown). -/
theorem C8_counterexample_closeFailurePropagates :
    (performMCPModelChat provOpenai wfBody false (some chatOK) (Except.error closeBoom)).thrown
      = some closeBoom
    ∧ (performMCPModelChat provOpenai wfBody false (some chatOK) (Except.error closeBoom)).reply
      = some helloReply
    ∧ (performMCPModelChat provOpenai wfBody false (some chatOK) (Except.ok ())).thrown
      = none :=
  ⟨rfl, rfl, rfl⟩

/-- C8 (amended): a failure of the pool connection's `close()` is not
caught or logged: on every exit path of a Session holding a client,
the close error propagates out of the release step as the handler's
thrown error (masking any pending exception of the run). -/
theorem C8_amended_closeFailureEscapes (prov : String) (mf : MessagesField)
    (streamFlag : Bool) (c : MCPChat) (e : JsErr)
    (ha : isArrayField mf = true) (hne : fieldList mf ≠ [])
    (hcp : c.clientPresent = true) :
    (performMCPModelChat prov mf streamFlag (some c) (Except.error e)).thrown = some e := by
  cases mf with
  | missing => simp [isArrayField] at ha
  | notArray => simp [isArrayField] at ha
  | arr xs =>
    cases xs with
    | nil => simp [fieldList] at hne
    | cons x xs =>
      simp [performMCPModelChat, isArrayField, fieldList, finallyThrown, hcp]

/-- Witness for C8 (amended): the concrete close failure. -/
theorem C8_amended_closeFailureEscapes_witness :
    (performMCPModelChat provOpenai wfBody true (some chatOK) (Except.error closeBoom)).thrown
      = some closeBoom :=
  C8_amended_closeFailureEscapes provOpenai wfBody true chatOK closeBoom
    rfl (by simp [wfBody, fieldList]) rfl

/-- C9: when acquisition fails, `ModelWithMCPFile` resolves to `null`
(`src/ai/Model.js` catches and returns `null`), and the loop indeed
never starts — no Model Invoker call is made — but the non-streaming
handler does not return an error result to the caller: the `catch`
branch's `res.write` of a plain object throws, the `finally` block
dereferences `chat.client` on `null`, and the handler exits by a
thrown TypeError with no response body, no status, and no close. -/
theorem C9_acquisitionFailureCrashes :
    (performMCPModelChat provOpenai wfBody false none (Except.ok ())).agentInvoked = false
    ∧ (performMCPModelChat provOpenai wfBody false none (Except.ok ())).thrown
        = some nullClientErr
    ∧ (performMCPModelChat provOpenai wfBody false none (Except.ok ())).statusJson = none
    ∧ (performMCPModelChat provOpenai wfBody false none (Except.ok ())).reply = none
    ∧ (performMCPModelChat provOpenai wfBody false none (Except.ok ())).writes = []
    ∧ (performMCPModelChat provOpenai wfBody false none (Except.ok ())).closeCalls = 0 :=
  ⟨rfl, rfl, rfl, rfl, rfl, rfl⟩

/-- C10: both handlers convert incoming messages with the same mapping,
which sends every message whose role is not exactly `user` — including
`system` and `tool` roles — to an `AIMessage` (assistant), and only a
`user` role to a `HumanMessage`. -/
theorem C10_nonUserRolesBecomeAssistant (m : InMsg) (ms : List InMsg)
    (hn : m.role ≠ r"user") :
    toLC m = LCMsg.ai m.content
    ∧ (∀ m2 : InMsg, m2.role = r"user" → toLC m2 = LCMsg.human m2.content)
    ∧ lcMessagesDirect ms = lcMessagesMCP ms := by
  refine ⟨?_, ?_, rfl⟩
  · unfold toLC
    rw [if_neg hn]
  · intro m2 h2
    unfold toLC
    rw [if_pos h2]

/-- A system-role input message. -/
def sysInMsg : InMsg := { role := r"system", content := r"be nice" }

/-- A tool-role input message. -/
def toolInMsg : InMsg := { role := r"tool", content := r"result" }

/-- Witness for C10: system and tool roles both map to `AIMessage`. -/
theorem C10_nonUserRolesBecomeAssistant_witness :
    toLC sysInMsg = LCMsg.ai sysInMsg.content
    ∧ toLC toolInMsg = LCMsg.ai toolInMsg.content :=
  ⟨(C10_nonUserRolesBecomeAssistant sysInMsg [] (by decide)).1,
    (C10_nonUserRolesBecomeAssistant toolInMsg [] (by decide)).1⟩

end Agentic
